import Mathlib

/-!
Verification of the stattrap statistics engine (stattrap/stats.py).

The Python classes are embedded shallowly:
  - Numeric samples, averages and accumulators are exact rationals.
    The spec states its numeric properties in exact arithmetic, so the
    embedding uses exact division where Python uses the division operator.
  - Timestamps (datetime values) are integers, thought of as microseconds
    on a global clock; every mutating call receives the current time as an
    explicit argument.
  - Mutation is explicit state passing: each method of the source becomes a
    function from the old state to the new state.
  - Rendering helpers of the standard library (isoformat, the percent
    formatting of floats and of timedelta values) are opaque to the claims
    under study, so the render functions take them as explicit parameters.
-/

/-- State of the source class Counter: a name, the sample count and the
first and last activity timestamps, both unset (None) at construction. -/
structure Counter where
  name : String
  count : ℕ
  first : Option ℤ
  last : Option ℤ
deriving Repr, DecidableEq

/-- Counter constructor: count 0, first and last unset. -/
def Counter.init (name : String) : Counter :=
  { name := name, count := 0, first := none, last := none }

/-- Counter.record: increment count, set last to now, set first only on the
first call. -/
def Counter.record (c : Counter) (now : ℤ) : Counter :=
  { c with
    count := c.count + 1
    last := some now
    first := if c.first = none then some now else c.first }

/-- State of the source class MinMaxAvgCounter: the Counter state plus
running max, min and cumulative moving average, all initialised to zero,
and the display parameters scale and precision. -/
structure MinMaxAvgCounter extends Counter where
  max : ℚ
  min : ℚ
  avg : ℚ
  scale : ℚ
  precision : ℕ
deriving Repr, DecidableEq

/-- MinMaxAvgCounter constructor: max, min and avg start at zero. -/
def MinMaxAvgCounter.init (name : String) (scale : ℚ) (precision : ℕ) :
    MinMaxAvgCounter :=
  { toCounter := Counter.init name
    max := 0, min := 0, avg := 0, scale := scale, precision := precision }

/-- MinMaxAvgCounter.record, statement by statement from the source:
first the base Counter.record, then
if value > max then max = value;
if value < min or 0 == min then min = value;
avg += (value - avg) / count, with count already incremented. -/
def MinMaxAvgCounter.record (c : MinMaxAvgCounter) (now : ℤ) (value : ℚ) :
    MinMaxAvgCounter :=
  let b := { c with toCounter := c.toCounter.record now }
  let b := if value > b.max then { b with max := value } else b
  let b := if value < b.min ∨ b.min = 0 then { b with min := value } else b
  { b with avg := b.avg + (value - b.avg) / (b.count : ℚ) }

/-- State of the source class StdDevCounter: the MinMaxAvgCounter state plus
the Welford accumulator mean2 (source field with an underscore before the
name) and the derived standard deviation.  The source stores the field
stddev = sqrt(mean2 / count); since that square root is irrational, the
embedding stores its radicand stddevSq, so the stored stddev of the source
is sqrt of this field.  The update below assigns the radicand exactly where
the source assigns the square root. -/
structure StdDevCounter extends MinMaxAvgCounter where
  mean2 : ℚ
  stddevSq : ℚ
deriving Repr, DecidableEq

/-- StdDevCounter constructor: mean2 and the stored stddev start at zero. -/
def StdDevCounter.init (name : String) (scale : ℚ) (precision : ℕ) :
    StdDevCounter :=
  { toMinMaxAvgCounter := MinMaxAvgCounter.init name scale precision
    mean2 := 0, stddevSq := 0 }

/-- StdDevCounter.record, statement by statement from the source:
delta = value - avg (with the average before the base record updates it);
then the base MinMaxAvgCounter.record; then
mean2 += delta * (value - avg) with the updated average; and only when
count > 2, stddev = sqrt(mean2 / count) (stored as its radicand). -/
def StdDevCounter.record (c : StdDevCounter) (now : ℤ) (value : ℚ) :
    StdDevCounter :=
  let delta := value - c.avg
  let b := { c with toMinMaxAvgCounter := c.toMinMaxAvgCounter.record now value }
  let b := { b with mean2 := b.mean2 + delta * (value - b.avg) }
  if b.count > 2 then { b with stddevSq := b.mean2 / (b.count : ℚ) } else b

/-- MicrosecondCounter constructor: a StdDevCounter with scale fixed to
1000000 and the default precision 3. -/
def MicrosecondCounter.init (name : String) : StdDevCounter :=
  StdDevCounter.init name 1000000 3

/-- Run a MinMaxAvgCounter over a list of samples, starting from the
default construction (empty name, scale 1, precision 3).  The recording
timestamp is irrelevant to the numeric fields and is fixed at 0. -/
def runMMA (l : List ℚ) : MinMaxAvgCounter :=
  l.foldl (fun s v => s.record 0 v) (MinMaxAvgCounter.init "" 1 3)

/-- Run a StdDevCounter over a list of samples, starting from the default
construction. -/
def runStd (l : List ℚ) : StdDevCounter :=
  l.foldl (fun s v => s.record 0 v) (StdDevCounter.init "" 1 3)

theorem MinMaxAvgCounter.record_count (c : MinMaxAvgCounter) (now : ℤ)
    (v : ℚ) : (c.record now v).count = c.count + 1 := by
  unfold record Counter.record
  dsimp only
  split <;> split <;> split <;> rfl

theorem MinMaxAvgCounter.record_avg (c : MinMaxAvgCounter) (now : ℤ)
    (v : ℚ) :
    (c.record now v).avg = c.avg + (v - c.avg) / ((c.count : ℚ) + 1) := by
  unfold record Counter.record
  dsimp only
  split <;> split <;> split <;> (dsimp only; push_cast; ring)

theorem runMMA_append (l : List ℚ) (v : ℚ) :
    runMMA (l ++ [v]) = (runMMA l).record 0 v := by
  simp [runMMA, List.foldl_append]

theorem runMMA_count (l : List ℚ) : (runMMA l).count = l.length := by
  induction l using List.reverseRecOn with
  | nil => rfl
  | append_singleton l v ih =>
      rw [runMMA_append, MinMaxAvgCounter.record_count, ih,
        List.length_append, List.length_singleton]

theorem runMMA_avg_mul (l : List ℚ) :
    (runMMA l).avg * (l.length : ℚ) = l.sum := by
  induction l using List.reverseRecOn with
  | nil => simp [runMMA, MinMaxAvgCounter.init]
  | append_singleton l v ih =>
      have hn : ((l.length : ℚ) + 1) ≠ 0 := by positivity
      rw [runMMA_append, MinMaxAvgCounter.record_avg, runMMA_count]
      rw [List.sum_append, List.length_append, List.length_singleton]
      push_cast
      field_simp
      linear_combination ih

/-- C3: after any nonempty sequence of record calls on a MinMaxAvgCounter,
the stored avg equals the arithmetic mean of the recorded values: the
cumulative moving average update with the post-increment count as divisor
computes the exact mean. -/
theorem avg_eq_mean (l : List ℚ) (h : l ≠ []) :
    (runMMA l).avg = l.sum / (l.length : ℚ) := by
  have hlen : (l.length : ℚ) ≠ 0 :=
    Nat.cast_ne_zero.mpr (List.length_pos.mpr h).ne'
  rw [eq_div_iff hlen]
  exact runMMA_avg_mul l

/-- Witness for C3 at the concrete sample list 1, 2. -/
theorem avg_eq_mean_witness :
    ([(1 : ℚ), 2] ≠ []) ∧
      (runMMA [(1 : ℚ), 2]).avg =
        ([(1 : ℚ), 2]).sum / (([(1 : ℚ), 2]).length : ℚ) :=
  ⟨by simp, avg_eq_mean [(1 : ℚ), 2] (by simp)⟩

/-- Sum of the squares of a list of samples. -/
def sumSq (l : List ℚ) : ℚ := (l.map (fun x => x ^ 2)).sum

/-- Two-pass population variance: mean of the squared deviations from the
mean, with divisor count (not count minus one). -/
def popVariance (l : List ℚ) : ℚ :=
  (l.map (fun x => (x - l.sum / (l.length : ℚ)) ^ 2)).sum / (l.length : ℚ)

theorem StdDevCounter.record_toMMA (c : StdDevCounter) (now : ℤ) (v : ℚ) :
    (c.record now v).toMinMaxAvgCounter = c.toMinMaxAvgCounter.record now v := by
  unfold record
  dsimp only
  split <;> rfl

theorem StdDevCounter.record_count_std (c : StdDevCounter) (now : ℤ) (v : ℚ) :
    (c.record now v).count = c.count + 1 := by
  show (c.record now v).toMinMaxAvgCounter.count = c.count + 1
  rw [StdDevCounter.record_toMMA, MinMaxAvgCounter.record_count]

theorem StdDevCounter.record_mean2 (c : StdDevCounter) (now : ℤ) (v : ℚ) :
    (c.record now v).mean2 =
      c.mean2 + (v - c.avg) * (v - (c.avg + (v - c.avg) / ((c.count : ℚ) + 1))) := by
  unfold record
  dsimp only
  split <;> simp only [MinMaxAvgCounter.record_avg]

theorem StdDevCounter.record_stddevSq (c : StdDevCounter) (now : ℤ) (v : ℚ) :
    (c.record now v).stddevSq =
      if 2 < c.count + 1 then
        (c.mean2 + (v - c.avg) * (v - (c.avg + (v - c.avg) / ((c.count : ℚ) + 1)))) /
          ((c.count : ℚ) + 1)
      else c.stddevSq := by
  unfold record
  dsimp only
  split
  case isTrue h =>
    rw [MinMaxAvgCounter.record_count] at h
    rw [if_pos h]
    simp only [MinMaxAvgCounter.record_avg, MinMaxAvgCounter.record_count]
    push_cast
    ring
  case isFalse h =>
    rw [MinMaxAvgCounter.record_count] at h
    rw [if_neg h]

theorem runStd_append (l : List ℚ) (v : ℚ) :
    runStd (l ++ [v]) = (runStd l).record 0 v := by
  simp [runStd, List.foldl_append]

theorem runStd_toMMA (l : List ℚ) :
    (runStd l).toMinMaxAvgCounter = runMMA l := by
  induction l using List.reverseRecOn with
  | nil => rfl
  | append_singleton l v ih =>
      rw [runStd_append, runMMA_append, StdDevCounter.record_toMMA, ih]

theorem runStd_count (l : List ℚ) : (runStd l).count = l.length := by
  show (runStd l).toMinMaxAvgCounter.count = l.length
  rw [runStd_toMMA, runMMA_count]

theorem runStd_avg_mul (l : List ℚ) :
    (runStd l).avg * (l.length : ℚ) = l.sum := by
  show (runStd l).toMinMaxAvgCounter.avg * (l.length : ℚ) = l.sum
  rw [runStd_toMMA]
  exact runMMA_avg_mul l

theorem runStd_mean2 (l : List ℚ) :
    (runStd l).mean2 = sumSq l - l.sum ^ 2 / (l.length : ℚ) := by
  induction l using List.reverseRecOn with
  | nil => simp [runStd, StdDevCounter.init, MinMaxAvgCounter.init,
      Counter.init, sumSq]
  | append_singleton l v ih =>
      rcases eq_or_ne l [] with rfl | hne
      · rw [runStd_append, StdDevCounter.record_mean2]
        simp [runStd, StdDevCounter.init, MinMaxAvgCounter.init,
          Counter.init, sumSq]
      · have hn : ((l.length : ℚ)) ≠ 0 :=
          Nat.cast_ne_zero.mpr (List.length_pos.mpr hne).ne'
        have hn1 : ((l.length : ℚ) + 1) ≠ 0 := by positivity
        have ha := runStd_avg_mul l
        rw [runStd_append, StdDevCounter.record_mean2, runStd_count, ih]
        simp only [sumSq, List.map_append, List.sum_append, List.length_append,
          List.length_singleton, List.map_cons, List.map_nil, List.sum_cons,
          List.sum_nil]
        rw [← ha]
        push_cast
        field_simp
        ring


theorem sum_sq_sub (cst : ℚ) (l : List ℚ) :
    (l.map (fun x => (x - cst) ^ 2)).sum =
      sumSq l - 2 * cst * l.sum + (l.length : ℚ) * cst ^ 2 := by
  induction l with
  | nil => simp [sumSq]
  | cons x xs ih =>
      simp only [List.map_cons, List.sum_cons, List.length_cons, sumSq] at *
      rw [ih]
      push_cast
      ring

theorem popVariance_closed (l : List ℚ) (h : l ≠ []) :
    popVariance l =
      (sumSq l - l.sum ^ 2 / (l.length : ℚ)) / (l.length : ℚ) := by
  have hn : ((l.length : ℚ)) ≠ 0 :=
    Nat.cast_ne_zero.mpr (List.length_pos.mpr h).ne'
  rw [popVariance, sum_sq_sub]
  field_simp
  ring

theorem runStd_stddevSq_split (l : List ℚ) :
    (l.length ≤ 2 → (runStd l).stddevSq = 0) ∧
      (2 < l.length →
        (runStd l).stddevSq = (runStd l).mean2 / (l.length : ℚ)) := by
  induction l using List.reverseRecOn with
  | nil => exact ⟨fun _ => rfl, fun h => absurd h (by simp)⟩
  | append_singleton l v ih =>
      rw [runStd_append, StdDevCounter.record_stddevSq, runStd_count,
        List.length_append, List.length_singleton]
      constructor
      · intro hle
        rw [if_neg (by omega)]
        exact ih.1 (by omega)
      · intro hgt
        rw [if_pos (by omega)]
        rw [StdDevCounter.record_mean2, runStd_count]
        push_cast
        ring

/-- C2: StdDevCounter.record follows the Welford update with delta taken
against the pre-update average and the second factor against the
post-update average; the stored standard deviation, sqrt of the stddevSq
field, is recomputed as sqrt(mean2 / count) only once count exceeds 2,
the initial zero being retained below that, and for count above 2 it
equals the two-pass population standard deviation of the samples. -/
theorem welford_stddev_two_pass (l : List ℚ) :
    (l.length ≤ 2 → (runStd l).stddevSq = 0) ∧
      (2 < l.length →
        (runStd l).stddevSq = popVariance l ∧
          Real.sqrt ((runStd l).stddevSq : ℝ) =
            Real.sqrt ((popVariance l : ℝ))) := by
  refine ⟨(runStd_stddevSq_split l).1, fun h => ?_⟩
  have hne : l ≠ [] := by
    intro he
    rw [he] at h
    simp at h
  have h1 : (runStd l).stddevSq = popVariance l := by
    rw [(runStd_stddevSq_split l).2 h, runStd_mean2, popVariance_closed l hne]
  exact ⟨h1, by rw [h1]⟩

/-- Witness for C2 at the concrete sample list 1, 2, 4 (count 3). -/
theorem welford_stddev_two_pass_witness :
    2 < ([(1 : ℚ), 2, 4]).length ∧
      (runStd [(1 : ℚ), 2, 4]).stddevSq = popVariance [(1 : ℚ), 2, 4] :=
  ⟨by simp, ((welford_stddev_two_pass [(1 : ℚ), 2, 4]).2 (by simp)).1⟩

/-- C1 refuted on the code: with the zero sentinels for min and max, the
first recorded sample of a MinMaxAvgCounter does not set max when it is
negative (record of -5 leaves max at 0, although the maximum of the
recorded values is -5), and min does not track the true minimum once a
zero sample occurs (after records 5, 0, 3 the stored min is 3 although
the minimum of the values is 0).  The count part of the claim does hold,
as the first two conjuncts show. -/
theorem minmax_zero_sentinel_failing :
    (runMMA [(-5 : ℚ)]).count = 1 ∧ (runMMA [(5 : ℚ), 0, 3]).count = 3 ∧
      (runMMA [(-5 : ℚ)]).max = 0 ∧ (runMMA [(-5 : ℚ)]).max ≠ -5 ∧
      (runMMA [(5 : ℚ), 0, 3]).min = 3 ∧ (runMMA [(5 : ℚ), 0, 3]).min ≠ 0 := by
  norm_num [runMMA, MinMaxAvgCounter.record, MinMaxAvgCounter.init,
    Counter.record, Counter.init]

/-- C8 refuted on the code: after the records 5, 0, 3 the counter has
count 3, min 3 and avg 8/3, so the claimed invariant min ≤ avg fails
(while avg ≤ max still holds here). -/
theorem min_le_avg_invariant_failing :
    1 ≤ (runMMA [(5 : ℚ), 0, 3]).count ∧
      (runMMA [(5 : ℚ), 0, 3]).min = 3 ∧
      (runMMA [(5 : ℚ), 0, 3]).avg = 8 / 3 ∧
      ¬ (runMMA [(5 : ℚ), 0, 3]).min ≤ (runMMA [(5 : ℚ), 0, 3]).avg := by
  norm_num [runMMA, MinMaxAvgCounter.record, MinMaxAvgCounter.init,
    Counter.record, Counter.init]

/-- Argument of ElapsedTimeStats.record_delta: either a raw microsecond
count or a timedelta value.  A Python timedelta is normalised to the
components days, seconds and microseconds with 0 ≤ seconds < 86400 and
0 ≤ microseconds < 1000000; the embedding carries the three components. -/
inductive DeltaValue where
  | raw (n : ℤ)
  | td (days : ℤ) (seconds : ℤ) (microseconds : ℤ)
deriving Repr, DecidableEq

/-- The conversion record_delta performs on its argument: a timedelta is
replaced by its microseconds attribute, which holds only the sub-second
component of the duration; a raw number passes through. -/
def DeltaValue.toSample : DeltaValue → ℤ
  | .raw n => n
  | .td _ _ microseconds => microseconds

/-- Modelled from the spec wording: the total number of microseconds a
timedelta with the given components spans, the quantity the claim says a
duration argument is converted to. -/
def tdTotalMicroseconds (days seconds microseconds : ℤ) : ℤ :=
  (days * 86400 + seconds) * 1000000 + microseconds

/-- State of the source class ElapsedTimeStats: creation timestamp, last
activity timestamp (unset until the first record) and the name-to-counter
mapping, embedded as an association list in creation order.  The source
mapping is a defaultdict whose missing-key handler creates a
MicrosecondCounter named after the key. -/
structure ElapsedTimeStats where
  started : ℤ
  last : Option ℤ
  counters : List (String × StdDevCounter)
deriving Repr, DecidableEq

/-- ElapsedTimeStats constructor at creation time now. -/
def ElapsedTimeStats.init (now : ℤ) : ElapsedTimeStats :=
  { started := now, last := none, counters := [] }

/-- The combined dictionary access and record of the source line
self.counters[name].record(delta): find the entry, creating a
MicrosecondCounter named after the key on a miss (the missing-key handler
of the registry dictionary), and record the sample into that counter. -/
def recordCounters (cs : List (String × StdDevCounter)) (name : String)
    (now : ℤ) (v : ℚ) : List (String × StdDevCounter) :=
  match cs with
  | [] => [(name, (MicrosecondCounter.init name).record now v)]
  | (k, c) :: rest =>
      if k = name then (k, c.record now v) :: rest
      else (k, c) :: recordCounters rest name now v

/-- ElapsedTimeStats.record_delta: a timedelta argument is converted via
its microseconds attribute, the sample is recorded into the named counter
and the last-activity timestamp is set to now. -/
def ElapsedTimeStats.record_delta (s : ElapsedTimeStats) (now : ℤ)
    (name : String) (delta : DeltaValue) : ElapsedTimeStats :=
  { s with
    counters := recordCounters s.counters name now ((delta.toSample : ℤ) : ℚ)
    last := some now }

/-- The normalised timedelta Python builds for a signed span of t
microseconds (as a difference of datetimes produces): days is the floor
quotient and seconds and microseconds are the floor remainders, so both
are nonnegative even for negative spans. -/
def tdOfMicroseconds (t : ℤ) : DeltaValue :=
  .td (t.ediv 86400000000) ((t.emod 86400000000).ediv 1000000) (t.emod 1000000)

/-- ElapsedTimeStats.record_elapsed: record the timedelta between now and
the given start under the given name. -/
def ElapsedTimeStats.record_elapsed (s : ElapsedTimeStats) (now : ℤ)
    (start : ℤ) (name : String) : ElapsedTimeStats :=
  s.record_delta now name (tdOfMicroseconds (now - start))

/-- C4 refuted on the code: record_delta given a timedelta of exactly two
seconds forwards its microseconds attribute, 0, not the 2000000
microseconds the duration spans, so the counter for the event ends with
average 0 instead of 2000000. -/
theorem record_delta_drops_seconds :
    DeltaValue.toSample (.td 0 2 0) = 0 ∧
      tdTotalMicroseconds 0 2 0 = 2000000 ∧
      (((ElapsedTimeStats.init 0).record_delta 7 "e" (.td 0 2 0)).counters.lookup
          "e").map (fun c => c.avg) = some 0 ∧
      (0 : ℤ) ≠ 2000000 := by
  refine ⟨rfl, by norm_num [tdTotalMicroseconds], ?_, by norm_num⟩
  norm_num [ElapsedTimeStats.init, ElapsedTimeStats.record_delta,
    recordCounters, MicrosecondCounter.init, StdDevCounter.record,
    MinMaxAvgCounter.record, StdDevCounter.init, MinMaxAvgCounter.init,
    Counter.record, Counter.init, DeltaValue.toSample, List.lookup]

theorem MinMaxAvgCounter.record_name (c : MinMaxAvgCounter) (now : ℤ)
    (v : ℚ) : (c.record now v).name = c.name := by
  unfold record Counter.record
  dsimp only
  split <;> split <;> split <;> rfl

theorem MinMaxAvgCounter.record_scale (c : MinMaxAvgCounter) (now : ℤ)
    (v : ℚ) : (c.record now v).scale = c.scale := by
  unfold record Counter.record
  dsimp only
  split <;> split <;> split <;> rfl

theorem MinMaxAvgCounter.record_precision (c : MinMaxAvgCounter) (now : ℤ)
    (v : ℚ) : (c.record now v).precision = c.precision := by
  unfold record Counter.record
  dsimp only
  split <;> split <;> split <;> rfl

theorem StdDevCounter.record_name_std (c : StdDevCounter) (now : ℤ) (v : ℚ) :
    (c.record now v).name = c.name := by
  show (c.record now v).toMinMaxAvgCounter.name = _
  rw [StdDevCounter.record_toMMA, MinMaxAvgCounter.record_name]

theorem StdDevCounter.record_scale_std (c : StdDevCounter) (now : ℤ) (v : ℚ) :
    (c.record now v).scale = c.scale := by
  show (c.record now v).toMinMaxAvgCounter.scale = _
  rw [StdDevCounter.record_toMMA, MinMaxAvgCounter.record_scale]

theorem StdDevCounter.record_precision_std (c : StdDevCounter) (now : ℤ)
    (v : ℚ) : (c.record now v).precision = c.precision := by
  show (c.record now v).toMinMaxAvgCounter.precision = _
  rw [StdDevCounter.record_toMMA, MinMaxAvgCounter.record_precision]

/-- The well-formedness each registry entry is claimed to satisfy: the
counter is named after its key and has the MicrosecondCounter display
parameters, scale 1000000 and precision 3. -/
def GoodEntry (p : String × StdDevCounter) : Prop :=
  p.2.name = p.1 ∧ p.2.scale = 1000000 ∧ p.2.precision = 3

theorem goodEntry_record (k : String) (c : StdDevCounter) (now : ℤ) (v : ℚ)
    (h : GoodEntry (k, c)) : GoodEntry (k, c.record now v) := by
  obtain ⟨h1, h2, h3⟩ := h
  exact ⟨by rw [StdDevCounter.record_name_std]; exact h1,
    by rw [StdDevCounter.record_scale_std]; exact h2,
    by rw [StdDevCounter.record_precision_std]; exact h3⟩

theorem goodEntry_recordCounters (cs : List (String × StdDevCounter))
    (name : String) (now : ℤ) (v : ℚ)
    (h : ∀ p ∈ cs, GoodEntry p) :
    ∀ p ∈ recordCounters cs name now v, GoodEntry p := by
  induction cs with
  | nil =>
      intro p hp
      rw [recordCounters] at hp
      rcases List.mem_singleton.mp hp with rfl
      refine goodEntry_record name (MicrosecondCounter.init name) now v ?_
      exact ⟨rfl, rfl, rfl⟩
  | cons q rest ih =>
      intro p hp
      obtain ⟨k, c⟩ := q
      rw [recordCounters] at hp
      by_cases hk : k = name
      · rw [if_pos hk] at hp
        rcases List.mem_cons.mp hp with rfl | hmem
        · exact goodEntry_record k c now v (h (k, c) (List.mem_cons_self _ _))
        · exact h p (List.mem_cons_of_mem _ hmem)
      · rw [if_neg hk] at hp
        rcases List.mem_cons.mp hp with rfl | hmem
        · exact h _ (List.mem_cons_self _ _)
        · exact ih (fun r hr => h r (List.mem_cons_of_mem _ hr)) p hmem

/-- One registry operation: a record_delta call or a record_elapsed call,
each carrying the time at which it happens. -/
inductive StatsOp where
  | rdelta (name : String) (delta : DeltaValue) (now : ℤ)
  | relapsed (name : String) (start : ℤ) (now : ℤ)
deriving Repr, DecidableEq

/-- Apply one registry operation. -/
def ElapsedTimeStats.applyOp (s : ElapsedTimeStats) : StatsOp → ElapsedTimeStats
  | .rdelta name delta now => s.record_delta now name delta
  | .relapsed name start now => s.record_elapsed now start name

/-- Run a freshly created registry over a sequence of operations. -/
def runStats (t0 : ℤ) (ops : List StatsOp) : ElapsedTimeStats :=
  ops.foldl ElapsedTimeStats.applyOp (ElapsedTimeStats.init t0)

theorem goodEntry_applyOp (s : ElapsedTimeStats) (op : StatsOp)
    (h : ∀ p ∈ s.counters, GoodEntry p) :
    ∀ p ∈ (s.applyOp op).counters, GoodEntry p := by
  cases op with
  | rdelta name delta now =>
      exact goodEntry_recordCounters s.counters name now _ h
  | relapsed name start now =>
      exact goodEntry_recordCounters s.counters name now _ h

theorem goodEntry_foldl (ops : List StatsOp) (s : ElapsedTimeStats)
    (h : ∀ p ∈ s.counters, GoodEntry p) :
    ∀ p ∈ (ops.foldl ElapsedTimeStats.applyOp s).counters, GoodEntry p := by
  induction ops generalizing s with
  | nil => exact h
  | cons op rest ih =>
      rw [List.foldl_cons]
      exact ih (s.applyOp op) (goodEntry_applyOp s op h)

/-- C10: after any sequence of record_delta and record_elapsed calls on a
fresh registry, every entry of the counters mapping is a
MicrosecondCounter for its key: its name equals the key it is stored
under, its scale is 1000000 and its precision is 3. -/
theorem registry_counters_good (t0 : ℤ) (ops : List StatsOp)
    (p : String × StdDevCounter) (hp : p ∈ (runStats t0 ops).counters) :
    p.2.name = p.1 ∧ p.2.scale = 1000000 ∧ p.2.precision = 3 :=
  goodEntry_foldl ops (ElapsedTimeStats.init t0) (by intro q hq; cases hq) p hp

/-- Witness for C10: one record_delta call creating the counter for the
key a. -/
theorem registry_counters_good_witness :
    (("a", (MicrosecondCounter.init "a").record 0 ((5 : ℤ) : ℚ)) ∈
        (runStats 0 [.rdelta "a" (.raw 5) 0]).counters) ∧
      ((MicrosecondCounter.init "a").record 0 ((5 : ℤ) : ℚ)).name = "a" ∧
      ((MicrosecondCounter.init "a").record 0 ((5 : ℤ) : ℚ)).scale = 1000000 ∧
      ((MicrosecondCounter.init "a").record 0 ((5 : ℤ) : ℚ)).precision = 3 :=
  ⟨List.Mem.head _,
    registry_counters_good 0 [.rdelta "a" (.raw 5) 0] _ (List.Mem.head _)⟩

/-- A Python 2 value passed to record: a number (kept exact) or a
non-numeric value such as a string. -/
inductive PyVal where
  | num (q : ℚ)
  | vstr (s : String)
deriving Repr, DecidableEq

/-- The Python 2 ordering used by the comparisons in record: numbers
compare numerically, two strings compare lexicographically, and values of
mismatched types are ordered by their type names, so every number is less
than every string and no exception is raised. -/
def pyLt : PyVal → PyVal → Bool
  | .num a, .num b => a < b
  | .num _, .vstr _ => true
  | .vstr _, .num _ => false
  | .vstr a, .vstr b => a < b

/-- Python 2 equality between mixed values: mismatched types are simply
unequal. -/
def pyEq : PyVal → PyVal → Bool
  | .num a, .num b => a = b
  | .vstr a, .vstr b => a = b
  | _, _ => false

/-- Python 2 subtraction of a number from a record argument: defined for a
numeric argument and a TypeError (none) for a string. -/
def pySubNum : PyVal → ℚ → Option ℚ
  | .num q, a => some (q - a)
  | .vstr _, _ => none

/-- MinMaxAvgCounter state under the dynamic typing of the source: min and
max can hold whatever value was recorded, numeric or not. -/
structure MinMaxAvgCounterPy where
  name : String
  count : ℕ
  first : Option ℤ
  last : Option ℤ
  max : PyVal
  min : PyVal
  avg : ℚ
  scale : ℚ
  precision : ℕ
deriving Repr, DecidableEq

/-- Fresh MinMaxAvgCounterPy, zero sentinels as in the source. -/
def MinMaxAvgCounterPy.init (name : String) (scale : ℚ) (precision : ℕ) :
    MinMaxAvgCounterPy :=
  { name := name, count := 0, first := none, last := none,
    max := .num 0, min := .num 0, avg := 0, scale := scale,
    precision := precision }

/-- MinMaxAvgCounterPy.record: the statements of the source method run in
order and the function returns the state reached together with a success
flag.  The base Counter.record and the max and min comparisons cannot
fail in Python 2; the average update subtracts from the sample and raises
TypeError for a non-numeric sample, at which point the earlier updates
have already been applied, so the partially updated state is returned
with the flag false. -/
def MinMaxAvgCounterPy.record (c : MinMaxAvgCounterPy) (now : ℤ)
    (value : PyVal) : MinMaxAvgCounterPy × Bool :=
  let b := { c with
    count := c.count + 1
    last := some now
    first := if c.first = none then some now else c.first }
  let b := if pyLt b.max value then { b with max := value } else b
  let b := if pyLt value b.min || pyEq (.num 0) b.min then { b with min := value } else b
  match pySubNum value b.avg with
  | some d => ({ b with avg := b.avg + d / (b.count : ℚ) }, true)
  | none => (b, false)

/-- C6 refuted on the code: recording the non-numeric sample x into a
fresh MinMaxAvgCounter fails at the average update (TypeError on the
subtraction), yet the state is left partially updated: count has become
1 and both max and min now hold the string, because in Python 2 a string
compares greater than the numeric zero sentinels. -/
theorem record_failure_leaves_changes :
    ((MinMaxAvgCounterPy.init "" 1 3).record 0 (.vstr "x")).2 = false ∧
      ((MinMaxAvgCounterPy.init "" 1 3).record 0 (.vstr "x")).1.count = 1 ∧
      ((MinMaxAvgCounterPy.init "" 1 3).record 0 (.vstr "x")).1.max = .vstr "x" ∧
      ((MinMaxAvgCounterPy.init "" 1 3).record 0 (.vstr "x")).1.min = .vstr "x" ∧
      (MinMaxAvgCounterPy.init "" 1 3).count = 0 ∧
      ((MinMaxAvgCounterPy.init "" 1 3).record 0 (.vstr "x")).1 ≠
        MinMaxAvgCounterPy.init "" 1 3 := by
  norm_num [MinMaxAvgCounterPy.init, MinMaxAvgCounterPy.record, pyLt, pyEq,
    pySubNum]

/-- The rendering helpers of the Python standard library, taken as
parameters: iso is datetime.isoformat on a timestamp, td is the textual
form of a timedelta (used for the uptime field), fix is the fixed-point
percent formatting of a scaled value at a precision, and fixSqrt is that
same formatting applied to the square root of a radicand divided by a
scale, which is how the stored standard deviation is printed. -/
structure Fmt where
  iso : ℤ → String
  td : ℤ → String
  fix : ℕ → ℚ → String
  fixSqrt : ℕ → ℚ → ℚ → String

/-- The field key prefix of a counter: the name followed by an underscore
when the name is non-empty, else the empty string. -/
def pfxOf (name : String) : String :=
  name ++ (if name = "" then "" else "_")

/-- Counter.__repr__: the count, first and last fields.  The source
formats first.isoformat() and last.isoformat(), which fails when the
timestamps are unset; that failure is modelled as none. -/
def Counter.render (f : Fmt) (c : Counter) : Option String :=
  match c.first, c.last with
  | some fi, some la =>
      some (pfxOf c.name ++ "count=" ++ toString c.count ++ "&" ++
        pfxOf c.name ++ "first=" ++ f.iso fi ++ "&" ++
        pfxOf c.name ++ "last=" ++ f.iso la)
  | _, _ => none

/-- MinMaxAvgCounter.__repr__: the base rendering followed by the min,
avg and max fields, each divided by the scale and formatted to the
precision. -/
def MinMaxAvgCounter.render (f : Fmt) (c : MinMaxAvgCounter) : Option String :=
  (Counter.render f c.toCounter).map (fun base =>
    base ++ "&" ++ pfxOf c.name ++ "min=" ++ f.fix c.precision (c.min / c.scale) ++
    "&" ++ pfxOf c.name ++ "avg=" ++ f.fix c.precision (c.avg / c.scale) ++
    "&" ++ pfxOf c.name ++ "max=" ++ f.fix c.precision (c.max / c.scale))

/-- StdDevCounter.__repr__: the base rendering followed by the stddev
field, the stored standard deviation divided by the scale at the same
precision. -/
def StdDevCounter.render (f : Fmt) (c : StdDevCounter) : Option String :=
  (MinMaxAvgCounter.render f c.toMinMaxAvgCounter).map (fun base =>
    base ++ "&" ++ pfxOf c.name ++ "stddev=" ++
      f.fixSqrt c.precision c.stddevSq c.scale)

/-- The rendering loop of ElapsedTimeStats.__repr__: each key of the
given list is looked up and its counter rendered; a missing key or a
failing render propagates as none. -/
def renderEntries (f : Fmt) (cs : List (String × StdDevCounter)) :
    List String → Option (List String)
  | [] => some []
  | k :: ks =>
      match cs.lookup k with
      | some c =>
          match StdDevCounter.render f c with
          | some s => (renderEntries f cs ks).map (fun rest => s :: rest)
          | none => none
      | none => none

/-- ElapsedTimeStats.__repr__ (the snapshot): the uptime and last fields
followed by every counter rendered in sorted key order, all segments
joined by the ampersand.  The source formats self.last.isoformat(),
which fails when no sample was ever recorded; that failure is modelled
as none. -/
def ElapsedTimeStats.render (f : Fmt) (now : ℤ) (s : ElapsedTimeStats) :
    Option String :=
  match s.last with
  | none => none
  | some la =>
      (renderEntries f s.counters
          ((s.counters.map Prod.fst).mergeSort (fun a b => a ≤ b))).map
        (fun segs =>
          String.intercalate "&" (("uptime=" ++ f.td (now - s.started)) ::
            ("last=" ++ f.iso la) :: segs))

/-- C5 refuted on the code: rendering a fresh counter (count 0) fails
because the unset first and last timestamps are formatted, and the
snapshot of a fresh registry with no recorded samples fails on its unset
last-activity timestamp, instead of producing sentinel text. -/
theorem render_uninitialized_fails (f : Fmt) :
    Counter.render f (Counter.init "") = none ∧
      ElapsedTimeStats.render f 0 (ElapsedTimeStats.init 0) = none :=
  ⟨rfl, rfl⟩

/-- Modelled from the claim wording: one counter rendered as the seven
fields in the fixed order count, first, last, min, avg, max, stddev,
every field key prefixed with the counter name and an underscore when
the name is non-empty and unprefixed otherwise, joined by ampersands. -/
def specRender (f : Fmt) (c : StdDevCounter) : String :=
  let p := if c.name = "" then "" else c.name ++ "_"
  p ++ "count=" ++ toString c.count ++ "&" ++
    p ++ "first=" ++ f.iso (c.first.getD 0) ++ "&" ++
    p ++ "last=" ++ f.iso (c.last.getD 0) ++ "&" ++
    p ++ "min=" ++ f.fix c.precision (c.min / c.scale) ++ "&" ++
    p ++ "avg=" ++ f.fix c.precision (c.avg / c.scale) ++ "&" ++
    p ++ "max=" ++ f.fix c.precision (c.max / c.scale) ++ "&" ++
    p ++ "stddev=" ++ f.fixSqrt c.precision c.stddevSq c.scale

theorem stdDevRender_flat (f : Fmt) (c : StdDevCounter) (fi la : ℤ)
    (h1 : c.first = some fi) (h2 : c.last = some la) :
    StdDevCounter.render f c = some (specRender f c) := by
  have hc : Counter.render f c.toCounter =
      some (pfxOf c.name ++ "count=" ++ toString c.count ++ "&" ++
        pfxOf c.name ++ "first=" ++ f.iso fi ++ "&" ++
        pfxOf c.name ++ "last=" ++ f.iso la) := by
    rw [Counter.render]
    have e1 : c.toCounter.first = some fi := h1
    have e2 : c.toCounter.last = some la := h2
    rw [e1, e2]
  rw [StdDevCounter.render, MinMaxAvgCounter.render, hc]
  refine congrArg some (String.ext ?_)
  by_cases hn : c.name = "" <;>
    simp [specRender, pfxOf, hn, h1, h2, String.data_append]

theorem lookup_eq_of_mem_nodup (cs : List (String × StdDevCounter))
    (k : String) (c : StdDevCounter)
    (hnd : (cs.map Prod.fst).Nodup) (hm : (k, c) ∈ cs) :
    cs.lookup k = some c := by
  induction cs with
  | nil => cases hm
  | cons q rest ih =>
      obtain ⟨k0, c0⟩ := q
      rw [List.map_cons, List.nodup_cons] at hnd
      rcases List.mem_cons.mp hm with heq | hmem
      · injection heq with hk1 hk2
        subst hk1
        subst hk2
        rw [List.lookup_cons]
        simp
      · have hk : k ≠ k0 := by
          rintro rfl
          exact hnd.1 (List.mem_map.mpr ⟨(k, c), hmem, rfl⟩)
        have hkb : (k == k0) = false := beq_eq_false_iff_ne.mpr hk
        rw [List.lookup_cons, hkb]
        exact ih hnd.2 hmem

theorem map_fst_mergeSort (cs : List (String × StdDevCounter)) :
    (cs.mergeSort (fun a b => a.1 ≤ b.1)).map Prod.fst =
      (cs.map Prod.fst).mergeSort (fun a b => a ≤ b) :=
  List.map_mergeSort (fun _ _ _ _ => rfl)

theorem renderEntries_sorted (f : Fmt) (cs : List (String × StdDevCounter))
    (hnd : (cs.map Prod.fst).Nodup)
    (hready : ∀ p ∈ cs, p.2.first.isSome ∧ p.2.last.isSome) :
    ∀ es : List (String × StdDevCounter), (∀ p ∈ es, p ∈ cs) →
      renderEntries f cs (es.map Prod.fst) =
        some (es.map (fun p => specRender f p.2)) := by
  intro es
  induction es with
  | nil => intro _; rfl
  | cons q rest ih =>
      intro hsub
      obtain ⟨k, c⟩ := q
      have hmem : (k, c) ∈ cs := hsub _ (List.mem_cons_self _ _)
      have hlk := lookup_eq_of_mem_nodup cs k c hnd hmem
      obtain ⟨hf, hl⟩ := hready _ hmem
      obtain ⟨fi, hfi⟩ := Option.isSome_iff_exists.mp hf
      obtain ⟨la, hla⟩ := Option.isSome_iff_exists.mp hl
      have hrest := ih (fun p hp => hsub p (List.mem_cons_of_mem _ hp))
      simp [renderEntries, hlk, stdDevRender_flat f c fi la hfi hla, hrest]

/-- C7: whenever the registry has recorded at least one sample (so the
last-activity timestamp is set), its keys are distinct and each stored
counter has its timestamps set, the snapshot is the uptime field, then
the last field, then every entry rendered with its fields in the fixed
order count, first, last, min, avg, max, stddev (keys prefixed with the
counter name and an underscore exactly when the name is non-empty), the
entries appearing in ascending key order, all joined by ampersands. -/
theorem snapshot_format (f : Fmt) (now : ℤ) (s : ElapsedTimeStats) (la : ℤ)
    (hla : s.last = some la)
    (hnd : (s.counters.map Prod.fst).Nodup)
    (hready : ∀ p ∈ s.counters, p.2.first.isSome ∧ p.2.last.isSome) :
    ElapsedTimeStats.render f now s =
      some (String.intercalate "&"
        (("uptime=" ++ f.td (now - s.started)) ::
          ("last=" ++ f.iso la) ::
          (s.counters.mergeSort (fun a b => a.1 ≤ b.1)).map
            (fun p => specRender f p.2))) ∧
      List.Sorted (· ≤ ·)
        ((s.counters.mergeSort (fun a b => a.1 ≤ b.1)).map Prod.fst) ∧
      (s.counters.mergeSort (fun a b => a.1 ≤ b.1)).Perm s.counters := by
  refine ⟨?_, ?_, List.mergeSort_perm _ _⟩
  · rw [ElapsedTimeStats.render, hla]
    have hkeys : (s.counters.map Prod.fst).mergeSort (fun a b => a ≤ b) =
        (s.counters.mergeSort (fun a b => a.1 ≤ b.1)).map Prod.fst :=
      (map_fst_mergeSort s.counters).symm
    rw [hkeys, renderEntries_sorted f s.counters hnd hready _
      (fun p hp => (List.mergeSort_perm s.counters _).mem_iff.mp hp)]
    rfl
  · have htrans : ∀ a b c : String × StdDevCounter,
        (decide (a.1 ≤ b.1)) = true → (decide (b.1 ≤ c.1)) = true →
          (decide (a.1 ≤ c.1)) = true := fun a b c hab hbc =>
      decide_eq_true (le_trans (of_decide_eq_true hab) (of_decide_eq_true hbc))
    have htotal : ∀ a b : String × StdDevCounter,
        ((decide (a.1 ≤ b.1)) || (decide (b.1 ≤ a.1))) = true := by
      intro a b
      rcases le_total a.1 b.1 with h | h <;> simp [h]
    have hp := @List.sorted_mergeSort (String × StdDevCounter)
      (fun a b => decide (a.1 ≤ b.1)) htrans htotal s.counters
    rw [List.Sorted, List.pairwise_map]
    exact hp.imp (fun h => of_decide_eq_true h)

/-- A trivial family of rendering helpers, for the concrete witness. -/
def fmtUnit : Fmt :=
  { iso := fun _ => "", td := fun _ => "", fix := fun _ _ => "",
    fixSqrt := fun _ _ _ => "" }

/-- A concrete recorded counter used by the snapshot witness. -/
def wsCounter (name : String) : StdDevCounter :=
  { name := name, count := 1, first := some 1, last := some 2, max := 0,
    min := 0, avg := 0, scale := 1000000, precision := 3, mean2 := 0,
    stddevSq := 0 }

/-- A concrete registry with two entries used by the snapshot witness. -/
def wStats : ElapsedTimeStats :=
  { started := 0, last := some 3,
    counters := [("b", wsCounter "b"), ("a", wsCounter "a")] }

/-- Witness for C7 at a concrete two-entry registry. -/
theorem snapshot_format_witness :
    ElapsedTimeStats.render fmtUnit 9 wStats =
      some (String.intercalate "&"
        (("uptime=" ++ fmtUnit.td (9 - wStats.started)) ::
          ("last=" ++ fmtUnit.iso 3) ::
          (wStats.counters.mergeSort (fun a b => a.1 ≤ b.1)).map
            (fun p => specRender fmtUnit p.2))) :=
  (snapshot_format fmtUnit 9 wStats 3 rfl (by decide) (by decide)).1
